import Mathlib

/-!
Verification of the OWID data-platform pipeline (Bronze → Silver → Gold).

The development shallowly embeds the transformation logic of the two core
scripts:

* `src/silver/transform_owid_to_silver.py` — column-name normalization and
  the data-quality gate `run_data_quality_checks`;
* `src/gold/build_gold_tables.py` — the dimension build (`dim_country`), the
  fact build (`fact_emissions`), the global yearly rollup (`agg_global`) and
  the per-year top-emitters report (`top_emitters`).

Tables are lists of rows; pandas `NaN`/missing cells are `Option.none`;
numeric measures are rationals; column names, where their text matters, are
lists of Unicode code points (`List Nat`).
-/

namespace OwidPipeline

/-! ### Column-name normalization (Silver stage, lines 93–98)

The script runs `df.columns.str.strip().str.lower().str.replace(" ", "_")`.
`strip` removes leading and trailing whitespace, `lower` lowercases (modelled
on the ASCII range `A`–`Z`), and `replace(" ", "_")` maps every space
character to an underscore.  Characters are Unicode code points. -/

/-- Code points treated as whitespace by Python `str.strip` (ASCII range):
space, tab, newline, carriage return, vertical tab, form feed. -/
def pyWhitespace (c : Nat) : Bool :=
  c = 32 || c = 9 || c = 10 || c = 13 || c = 11 || c = 12

/-- Remove trailing whitespace (the right half of `str.strip`). -/
def stripBack (s : List Nat) : List Nat :=
  (s.reverse.dropWhile pyWhitespace).reverse

/-- Python `str.strip`: drop leading and trailing whitespace. -/
def pyStrip (s : List Nat) : List Nat :=
  stripBack (s.dropWhile pyWhitespace)

/-- Python `str.lower` on a single code point, for the ASCII letters
`A`(65)–`Z`(90), which map to `a`(97)–`z`(122). -/
def lowerChar (c : Nat) : Nat := if 65 ≤ c ∧ c ≤ 90 then c + 32 else c

/-- `str.replace(" ", "_")` on a single code point: space (32) becomes
underscore (95). -/
def spaceToUnderscore (c : Nat) : Nat := if c = 32 then 95 else c

/-- The column-name normalization of the Silver stage:
trim, then lowercase, then replace spaces with underscores. -/
def normalizeName (s : List Nat) : List Nat :=
  ((pyStrip s).map lowerChar).map spaceToUnderscore

/-- Normalization applied to the whole header row, as
`df.columns = df.columns.str.strip().str.lower().str.replace(" ", "_")`. -/
def normalizeColumns (cols : List (List Nat)) : List (List Nat) :=
  cols.map normalizeName

/-! ### Quality Gate (Silver stage, `run_data_quality_checks`, lines 112–169)

A validated table carries its column names and one record per row.  A pandas
`NaN`/`pd.NA` cell is `none`.  The row fields are meaningful only when the
corresponding column is present; the gate consults them only after the
required-columns check has passed, exactly as the sequential checks in the
script do. -/

structure QRow where
  country : Option String
  year : Option Int
  co2 : Option Rat
deriving DecidableEq

structure QTable where
  cols : List String
  rows : List QRow
deriving DecidableEq

/-- Check A: `df.empty` (pandas: true when either axis has length zero). -/
def qcEmpty (t : QTable) : Bool := t.rows.isEmpty || t.cols.isEmpty

/-- Check B: `{"country", "year"} - set(df.columns)` is non-empty. -/
def qcMissingColumns (t : QTable) : Bool :=
  !(decide ("country" ∈ t.cols) && decide ("year" ∈ t.cols))

/-- Check C, first half: `df["country"].isna().any()`. -/
def qcNullCountry (t : QTable) : Bool := t.rows.any (fun r => r.country.isNone)

/-- Check C, second half: `df["year"].isna().any()`. -/
def qcNullYear (t : QTable) : Bool := t.rows.any (fun r => r.year.isNone)

/-- Check D: some row satisfies `(year < 1750) | (year > current_year)`. -/
def qcBadYear (currentYear : Int) (t : QTable) : Bool :=
  t.rows.any (fun r =>
    match r.year with
    | some y => decide (y < 1750) || decide (currentYear < y)
    | none => false)

/-- Check E: a `co2` column exists and some row has `co2 < 0`.  The pandas
comparison `df["co2"] < 0` is false at `NaN`, so null cells never trigger
the check. -/
def qcNegativeCo2 (t : QTable) : Bool :=
  decide ("co2" ∈ t.cols) && t.rows.any (fun r =>
    match r.co2 with
    | some c => decide (c < 0)
    | none => false)

/-- The error descriptions raised by the five checks, in check order
(check C raises one of two messages). -/
def qualityMessages : List String :=
  ["Data quality check failed: DataFrame is empty",
   "Missing required columns",
   "Null values found in country column",
   "Null values found in year column",
   "Invalid years detected outside 1750..current year",
   "Negative CO2 values detected"]

/-- `run_data_quality_checks`: the checks run in order and the first failing
one raises; on success the function returns silently. -/
def validate (currentYear : Int) (t : QTable) : Except String Unit :=
  if qcEmpty t then .error "Data quality check failed: DataFrame is empty"
  else if qcMissingColumns t then .error "Missing required columns"
  else if qcNullCountry t then .error "Null values found in country column"
  else if qcNullYear t then .error "Null values found in year column"
  else if qcBadYear currentYear t then
    .error "Invalid years detected outside 1750..current year"
  else if qcNegativeCo2 t then .error "Negative CO2 values detected"
  else .ok ()

/-- Storage artifacts the Silver stage can produce. -/
inductive SilverArtifact
  | silverTable (t : QTable)
deriving DecidableEq

/-- The tail of the Silver script: `run_data_quality_checks(df)` followed by
the parquet write and upload.  The write happens only when validation
returned; a raised error propagates and nothing is written. -/
def silverStage (currentYear : Int) (t : QTable) :
    List SilverArtifact × Option String :=
  match validate currentYear t with
  | .ok _ => ([SilverArtifact.silverTable t], none)
  | .error e => ([], some e)

/-! ### Silver rows feeding the Gold stage (`build_gold_tables.py`)

A Silver row carries the natural key `iso_code`, the descriptive columns
`country` and `continent`, the integer `year` (never null after the Silver
drop step) and the primary measure `co2`.  `continent` and `co2` are optional
columns of the source schema, so the table records whether each is present;
the corresponding row fields are meaningful only when the flag is set.  Other
measure columns play no role in the claims and are not modelled. -/

structure SRow where
  iso_code : Option String
  country : Option String
  continent : Option String
  year : Int
  co2 : Option Rat
deriving DecidableEq

structure STable where
  hasContinent : Bool
  hasCo2 : Bool
  rows : List SRow
deriving DecidableEq

/-- A row of `dim_country` before the surrogate key is attached: the column
selection `df[dim_columns]` after the rename `iso_code → country_id`.  The
`continent` field is `none` when the source schema has no such column. -/
structure DimRow where
  country_id : String
  country : Option String
  continent : Option (Option String)
deriving DecidableEq

/-- `drop_duplicates()`: keep the first occurrence of every value. -/
def dropDupFirst {α : Type} [DecidableEq α] : List α → List α
  | [] => []
  | a :: l => a :: (dropDupFirst l).filter (fun b => decide (b ≠ a))

/-- `df[dim_columns].dropna(subset=["iso_code"])`: select the dimension
columns (with `continent` only if present in the schema) and drop rows whose
natural key is null. -/
def dimSelect (t : STable) : List DimRow :=
  t.rows.filterMap (fun r =>
    r.iso_code.map (fun iso =>
      ⟨iso, r.country, if t.hasContinent then some r.continent else none⟩))

/-- Lexicographic comparison of character lists by code point. -/
def charListLe : List Char → List Char → Bool
  | [], _ => true
  | _ :: _, [] => false
  | a :: s, b :: t => if a < b then true else if b < a then false else charListLe s t

/-- Lexicographic code-point comparison of strings: the ascending order used
by `sort_values` on a string column. -/
def strLe (a b : String) : Bool := charListLe a.data b.data

/-- Strictly-less companion of `strLe`. -/
def strLt (a b : String) : Bool := strLe a b && !(a == b)

/-- Comparison used by `sort_values("iso_code")`. -/
def dimLe (a b : DimRow) : Prop := strLe a.country_id b.country_id = true

instance : DecidableRel dimLe := fun a b =>
  inferInstanceAs (Decidable (strLe a.country_id b.country_id = true))

instance : IsTotal DimRow dimLe := by
  constructor
  intro a b
  unfold dimLe strLe
  generalize a.country_id.data = s
  generalize b.country_id.data = t
  induction s generalizing t with
  | nil => exact Or.inl rfl
  | cons x xs ih =>
    cases t with
    | nil => exact Or.inr rfl
    | cons y ys =>
      by_cases hxy : x < y
      · left; simp [charListLe, hxy]
      · by_cases hyx : y < x
        · right; simp [charListLe, hyx]
        · have hxe : x = y := le_antisymm (not_lt.mp hyx) (not_lt.mp hxy)
          subst hxe
          rcases ih ys with h | h
          · left; simp [charListLe, hxy, h]
          · right; simp [charListLe, hxy, h]

instance : IsTrans DimRow dimLe := by
  constructor
  intro a b c
  unfold dimLe strLe
  generalize a.country_id.data = s
  generalize b.country_id.data = t
  generalize c.country_id.data = u
  induction s generalizing t u with
  | nil => intro _ _; rfl
  | cons x xs ih =>
    cases t with
    | nil => intro h; simp [charListLe] at h
    | cons y ys =>
      cases u with
      | nil => intro _ h; simp [charListLe] at h
      | cons z zs =>
        intro h1 h2
        simp only [charListLe] at *
        by_cases hxy : x < y
        · have hyz : ¬ z < y := by
            intro hzy
            by_cases hyz2 : y < z
            · exact absurd hzy (lt_asymm hyz2)
            · simp [hyz2, hzy] at h2
          have hxz : x < z := lt_of_lt_of_le hxy (not_lt.mp hyz)
          simp [hxz]
        · by_cases hyx : y < x
          · simp [hxy, hyx] at h1
          · have hxe : x = y := le_antisymm (not_lt.mp hyx) (not_lt.mp hxy)
            subst hxe
            by_cases hyz : x < z
            · simp [hyz]
            · by_cases hzy : z < x
              · simp [hyz, hzy] at h2
              · have hye : x = z := le_antisymm (not_lt.mp hzy) (not_lt.mp hyz)
                subst hye
                simp only [lt_irrefl, if_neg, if_false] at *
                exact ih ys zs h1 h2

/-- `dim_country.index + 1`: attach consecutive integers starting at `k` to
the rows of a list. -/
def attachSk {α : Type} : Nat → List α → List (α × Nat)
  | _, [] => []
  | k, r :: l => (r, k) :: attachSk (k + 1) l

/-- The deduplicated dimension rows in ascending natural-key order:
`.drop_duplicates().sort_values("iso_code")`. -/
def dimSorted (t : STable) : List DimRow :=
  List.insertionSort dimLe (dropDupFirst (dimSelect t))

/-- The dimension build (lines 75–87): select, drop null natural keys,
deduplicate exact row tuples, sort ascending by the natural key, and assign
`country_sk` as position + 1. -/
def dim_country (t : STable) : List (DimRow × Nat) :=
  attachSk 1 (dimSorted t)

/-- A fact row after the merge and the drop of the natural-key columns:
`country_sk, year, co2` (plus unmodelled measure columns). -/
structure FactRow where
  country_sk : Option Nat
  year : Int
  co2 : Option Rat
deriving DecidableEq

/-- The dimension rows matching a Silver row's natural key in the left merge
`left_on="iso_code", right_on="country_id"`.  A null `iso_code` matches
nothing. -/
def factMatches (t : STable) (r : SRow) : List (DimRow × Nat) :=
  (dim_country t).filter (fun d => decide (r.iso_code = some d.1.country_id))

/-- The fact build (lines 99–120): every Silver row is kept in order; a row
with no dimension match yields one fact row with a null `country_sk`, and a
row with matches yields one fact row per matching dimension row, as pandas
`merge(..., how="left")` does. -/
def fact_emissions (t : STable) : List FactRow :=
  t.rows.flatMap (fun r =>
    match factMatches t r with
    | [] => [⟨none, r.year, r.co2⟩]
    | ms => ms.map (fun d => ⟨some d.2, r.year, r.co2⟩))

/-- `co2` survives into the fact table exactly when the Silver table has it:
the fact projection drops only `country`, `continent` and (after the merge)
`iso_code`/`country_id`. -/
def factHasCo2 (t : STable) : Bool := t.hasCo2

/-! ### Gold aggregations (`build_gold_tables.py`, sections 8 and 10) -/

/-- The fact rows of a given year. -/
def yearRows (fact : List FactRow) (y : Int) : List FactRow :=
  fact.filter (fun r => decide (r.year = y))

/-- The non-null `co2` values of a list of fact rows (pandas aggregations
skip `NaN`). -/
def co2Values (rows : List FactRow) : List Rat :=
  rows.filterMap (fun r => r.co2)

/-- `("co2", "sum")` within one year group: sum of the non-null values. -/
def sumCo2 (fact : List FactRow) (y : Int) : Rat :=
  (co2Values (yearRows fact y)).sum

/-- `("co2", "mean")` within one year group: arithmetic mean of the non-null
values, `NaN` (here `none`) when there are none. -/
def meanCo2 (fact : List FactRow) (y : Int) : Option Rat :=
  let vs := co2Values (yearRows fact y)
  if vs.length = 0 then none else some (vs.sum / (vs.length : Rat))

/-- `("country_sk", "nunique")` within one year group: the number of distinct
non-null surrogate keys (pandas `nunique` drops nulls). -/
def skCount (fact : List FactRow) (y : Int) : Nat :=
  (dropDupFirst ((yearRows fact y).filterMap (fun r => r.country_sk))).length

/-- Rounding half to even, as numpy `round` does on the underlying values. -/
def roundHalfEven (q : Rat) : Int :=
  let f := ⌊q⌋
  let r := q - (f : Rat)
  if r < 1/2 then f
  else if 1/2 < r then f + 1
  else if f % 2 = 0 then f else f + 1

/-- `Series.round(n)`: round to `n` decimal places. -/
def roundTo (n : Nat) (q : Rat) : Rat :=
  (roundHalfEven (q * (10 : Rat) ^ n) : Rat) / (10 : Rat) ^ n

/-- The year groups of `groupby("year")`, in pandas group order (ascending,
distinct). -/
def aggYears (fact : List FactRow) : List Int :=
  List.insertionSort (· ≤ ·) (dropDupFirst (fact.map (fun r => r.year)))

/-- A row of `agg_global_emissions_by_year`. -/
structure AggRow where
  year : Int
  total_co2 : Rat
  avg_co2 : Option Rat
  country_count : Nat
deriving DecidableEq

/-- The global yearly rollup (lines 150–162): group by `year`, aggregate sum,
mean and distinct country count, then round the sum to 2 and the mean to 4
decimal places. -/
def agg_global (fact : List FactRow) : List AggRow :=
  (aggYears fact).map (fun y =>
    ⟨y, roundTo 2 (sumCo2 fact y), (meanCo2 fact y).map (roundTo 4),
      skCount fact y⟩)

/-- Group-key order of `groupby(["year", "country_sk"])`. -/
def keyLe (a b : Int × Nat) : Prop := a.1 < b.1 ∨ (a.1 = b.1 ∧ a.2 ≤ b.2)

instance : DecidableRel keyLe := fun a b =>
  inferInstanceAs (Decidable (a.1 < b.1 ∨ (a.1 = b.1 ∧ a.2 ≤ b.2)))

instance : IsTotal (Int × Nat) keyLe := by
  constructor
  intro a b
  unfold keyLe
  rcases lt_trichotomy a.1 b.1 with h | h | h
  · exact Or.inl (Or.inl h)
  · rcases le_total a.2 b.2 with h2 | h2
    · exact Or.inl (Or.inr ⟨h, h2⟩)
    · exact Or.inr (Or.inr ⟨h.symm, h2⟩)
  · exact Or.inr (Or.inl h)

instance : IsTrans (Int × Nat) keyLe := by
  constructor
  intro a b c h1 h2
  unfold keyLe at *
  rcases h1 with h1 | ⟨h1e, h1n⟩ <;> rcases h2 with h2 | ⟨h2e, h2n⟩
  · exact Or.inl (lt_trans h1 h2)
  · exact Or.inl (h2e ▸ h1)
  · exact Or.inl (h1e ▸ h2)
  · exact Or.inr ⟨h1e.trans h2e, le_trans h1n h2n⟩

/-- The `(year, country_sk)` group keys of the fact table: rows whose
`country_sk` is null are dropped by pandas `groupby`, and group keys are the
distinct remaining pairs in ascending order. -/
def groupKeys (fact : List FactRow) : List (Int × Nat) :=
  List.insertionSort keyLe
    (dropDupFirst (fact.filterMap (fun r =>
      r.country_sk.map (fun sk => (r.year, sk)))))

/-- `("co2", "sum")` within one `(year, country_sk)` group. -/
def groupTotal (fact : List FactRow) (y : Int) (sk : Nat) : Rat :=
  ((fact.filter (fun r =>
    decide (r.year = y) && decide (r.country_sk = some sk))).filterMap
      (fun r => r.co2)).sum

/-- `country_year_emissions` (lines 193–197): total co2 per
`(year, country_sk)` group. -/
def country_year_emissions (fact : List FactRow) : List (Int × Nat × Rat) :=
  (groupKeys fact).map (fun k => (k.1, k.2, groupTotal fact k.1 k.2))

/-- The distinct summed totals occurring in one year. -/
def yearDistinctTotals (cye : List (Int × Nat × Rat)) (y : Int) : List Rat :=
  dropDupFirst ((cye.filter (fun g => decide (g.1 = y))).map (fun g => g.2.2))

/-- `rank(method="dense", ascending=False)` within a year: one plus the
number of distinct totals strictly greater than the value. -/
def denseRank (cye : List (Int × Nat × Rat)) (y : Int) (v : Rat) : Nat :=
  1 + ((yearDistinctTotals cye y).filter (fun w => decide (v < w))).length

/-- A row of `agg_top_emitters_by_year`. -/
structure TERow where
  year : Int
  country_sk : Nat
  total_co2 : Rat
  rank : Nat
deriving DecidableEq

/-- `country_year_emissions` with its `rank` column (lines 199–204). -/
def rankedEmissions (fact : List FactRow) : List TERow :=
  (country_year_emissions fact).map (fun g =>
    ⟨g.1, g.2.1, g.2.2, denseRank (country_year_emissions fact) g.1 g.2.2⟩)

/-- `TOP_N = 10`. -/
def TOP_N : Nat := 10

/-- Output order of `sort_values(["year", "rank"])`. -/
def teLe (a b : TERow) : Prop :=
  a.year < b.year ∨ (a.year = b.year ∧ a.rank ≤ b.rank)

instance : DecidableRel teLe := fun a b =>
  inferInstanceAs (Decidable (a.year < b.year ∨ (a.year = b.year ∧ a.rank ≤ b.rank)))

instance : IsTotal TERow teLe := by
  constructor
  intro a b
  unfold teLe
  rcases lt_trichotomy a.year b.year with h | h | h
  · exact Or.inl (Or.inl h)
  · rcases le_total a.rank b.rank with h2 | h2
    · exact Or.inl (Or.inr ⟨h, h2⟩)
    · exact Or.inr (Or.inr ⟨h.symm, h2⟩)
  · exact Or.inr (Or.inl h)

instance : IsTrans TERow teLe := by
  constructor
  intro a b c h1 h2
  unfold teLe at *
  rcases h1 with h1 | ⟨h1e, h1n⟩ <;> rcases h2 with h2 | ⟨h2e, h2n⟩
  · exact Or.inl (lt_trans h1 h2)
  · exact Or.inl (h2e ▸ h1)
  · exact Or.inl (h1e ▸ h2)
  · exact Or.inr ⟨h1e.trans h2e, le_trans h1n h2n⟩

/-- `top_emitters` (lines 207–209): keep the groups ranked at most `TOP_N`,
sorted by `(year, rank)`. -/
def top_emitters (fact : List FactRow) : List TERow :=
  List.insertionSort teLe
    ((rankedEmissions fact).filter (fun g => decide (g.rank ≤ TOP_N)))

/-! ### The Gold stage write sequence

Section 7 of the script writes and uploads `dim_country` and
`fact_emissions`; section 8 then checks for the `co2` column and raises
`ValueError` when it is absent; sections 9 and 11 write the two aggregate
tables.  A raise therefore happens after the base-table writes and before
the aggregate writes. -/

inductive GoldWrite
  | dimTable (rows : List (DimRow × Nat))
  | factTable (rows : List FactRow)
  | aggGlobalTable (rows : List AggRow)
  | topEmittersTable (rows : List TERow)
deriving DecidableEq

/-- The Gold stage: the writes it performs, in order, and the error it
raises, if any. -/
def goldStage (t : STable) : List GoldWrite × Option String :=
  let dim := dim_country t
  let fact := fact_emissions t
  if factHasCo2 t then
    ([GoldWrite.dimTable dim, GoldWrite.factTable fact,
      GoldWrite.aggGlobalTable (agg_global fact),
      GoldWrite.topEmittersTable (top_emitters fact)], none)
  else
    ([GoldWrite.dimTable dim, GoldWrite.factTable fact],
      some "Expected co2 column not found in fact table")

/-! ### Concrete inputs used in counterexamples and witnesses -/

/-- A Silver table in which the natural key `USA` appears with two different
display names: legal Silver data (non-null country and in-range year), but
the key does not determine the dimension tuple. -/
def exDup : STable :=
  ⟨false, true,
    [⟨some "USA", some "United States", none, 2000, some 1⟩,
     ⟨some "USA", some "America", none, 2001, some 2⟩]⟩

/-- A Silver table with three distinct natural keys arriving unsorted. -/
def exDim3 : STable :=
  ⟨false, true,
    [⟨some "USA", some "United States", none, 2000, some 1⟩,
     ⟨some "AFG", some "Afghanistan", none, 2000, some 2⟩,
     ⟨some "DEU", some "Germany", none, 2000, some 3⟩]⟩

/-- A Silver table without a `co2` column. -/
def exNoCo2 : STable :=
  ⟨false, false, [⟨some "AFG", some "Afghanistan", none, 2000, none⟩]⟩

/-- A Silver table with one row whose natural key is null: that row matches
no dimension row and must survive the left join with a null surrogate key. -/
def exNullIso : STable :=
  ⟨false, true,
    [⟨some "AFG", some "Afghanistan", none, 2000, some 1⟩,
     ⟨none, some "Kosovo", none, 2000, some 2⟩]⟩

/-- Fact rows giving one year the summed measures `[100, 100, 90]`. -/
def exTie : List FactRow :=
  [⟨some 1, 2000, some 100⟩, ⟨some 2, 2000, some 100⟩, ⟨some 3, 2000, some 90⟩]

/-- Fact rows for one year: `co2 = [10, 20, 30]` from 3 distinct countries. -/
def exAgg : List FactRow :=
  [⟨some 1, 2020, some 10⟩, ⟨some 2, 2020, some 20⟩, ⟨some 3, 2020, some 30⟩]

/-- Eleven countries of one year, all tied on the summed measure: every
`co2` cell is null, so every group total is the empty-sum `0` (pandas sums an
all-`NaN` group to `0.0`) and all eleven countries share dense rank 1. -/
def exEleven : List FactRow :=
  (List.range 11).map (fun i => ⟨some (i + 1), 2000, none⟩)

/-- A quality-gate table whose `co2` column contains a null but no negative
value, with all other checks passing. -/
def qtGood : QTable :=
  ⟨["country", "year", "co2"],
    [⟨some "Afghanistan", some 2000, none⟩, ⟨some "Albania", some 2001, some 3⟩]⟩

/-- A fact table rows list used to exercise null-key exclusion. -/
def exNullSk : List FactRow :=
  [⟨some 1, 2000, some 100⟩, ⟨none, 2000, some 55⟩, ⟨some 2, 2000, some 90⟩]

/-! ### Helper lemmas: column normalization -/

theorem lowerChar_fix (c : Nat) : lowerChar (lowerChar c) = lowerChar c := by
  unfold lowerChar
  split_ifs <;> omega

theorem normChar_fix (c : Nat) :
    spaceToUnderscore (lowerChar (spaceToUnderscore (lowerChar c))) =
      spaceToUnderscore (lowerChar c) := by
  unfold lowerChar spaceToUnderscore
  split_ifs <;> omega

theorem normChar_not_ws (c : Nat) (h : pyWhitespace c = false) :
    pyWhitespace (spaceToUnderscore (lowerChar c)) = false := by
  unfold pyWhitespace at *
  unfold lowerChar spaceToUnderscore
  split_ifs <;> simp_all

theorem head?_dropWhile_not_ws (p : Nat → Bool) :
    ∀ (l : List Nat) (c : Nat), (l.dropWhile p).head? = some c → p c = false := by
  intro l
  induction l with
  | nil => intro c h; simp at h
  | cons a t ih =>
    intro c h
    by_cases hp : p a
    · rw [List.dropWhile_cons_of_pos hp] at h; exact ih c h
    · rw [List.dropWhile_cons_of_neg hp] at h
      simp at h
      simp [← h, hp]

theorem exists_append_dropWhile (p : Nat → Bool) :
    ∀ l : List Nat, ∃ t : List Nat, l = t ++ l.dropWhile p := by
  intro l
  induction l with
  | nil => exact ⟨[], rfl⟩
  | cons a t ih =>
    by_cases hp : p a
    · obtain ⟨u, hu⟩ := ih
      exact ⟨a :: u, by rw [List.dropWhile_cons_of_pos hp]; simpa using hu⟩
    · exact ⟨[], by rw [List.dropWhile_cons_of_neg hp]; simp⟩

theorem head?_stripBack (l : List Nat) (c : Nat)
    (h : (stripBack l).head? = some c) : l.head? = some c := by
  unfold stripBack at h
  obtain ⟨t, ht⟩ := exists_append_dropWhile pyWhitespace l.reverse
  have hl : l = (l.reverse.dropWhile pyWhitespace).reverse ++ t.reverse := by
    conv_lhs => rw [← List.reverse_reverse l, ht]
    simp
  rw [hl]
  cases hr : (l.reverse.dropWhile pyWhitespace).reverse with
  | nil => rw [hr] at h; simp at h
  | cons b u =>
    rw [hr] at h
    simp at h
    simp [← h]

theorem getLast?_stripBack (l : List Nat) (c : Nat)
    (h : (stripBack l).getLast? = some c) : pyWhitespace c = false := by
  unfold stripBack at h
  rw [List.getLast?_reverse] at h
  exact head?_dropWhile_not_ws pyWhitespace l.reverse c h

theorem head?_pyStrip_not_ws (s : List Nat) (c : Nat)
    (h : (pyStrip s).head? = some c) : pyWhitespace c = false := by
  unfold pyStrip at h
  have h2 := head?_stripBack _ _ h
  exact head?_dropWhile_not_ws pyWhitespace s c h2

theorem getLast?_pyStrip_not_ws (s : List Nat) (c : Nat)
    (h : (pyStrip s).getLast? = some c) : pyWhitespace c = false := by
  unfold pyStrip at h
  exact getLast?_stripBack _ _ h

theorem pyStrip_eq_self (l : List Nat)
    (hh : ∀ c : Nat, l.head? = some c → pyWhitespace c = false)
    (hl : ∀ c : Nat, l.getLast? = some c → pyWhitespace c = false) :
    pyStrip l = l := by
  have h1 : l.dropWhile pyWhitespace = l := by
    cases l with
    | nil => rfl
    | cons a t =>
      have := hh a (by rfl)
      rw [List.dropWhile_cons_of_neg (by simp [this])]
  unfold pyStrip
  rw [h1]
  unfold stripBack
  have h2 : l.reverse.dropWhile pyWhitespace = l.reverse := by
    cases hr : l.reverse with
    | nil => rfl
    | cons b u =>
      have hb : l.getLast? = some b := by
        rw [← List.head?_reverse, hr]; rfl
      have hbw := hl b hb
      rw [List.dropWhile_cons_of_neg (by simp [hbw])]
  rw [h2, List.reverse_reverse]

theorem normalizeName_eq_map (t : List Nat) :
    normalizeName t = (pyStrip t).map (fun c => spaceToUnderscore (lowerChar c)) := by
  unfold normalizeName; rw [List.map_map]; rfl

theorem normalizeName_idem (s : List Nat) :
    normalizeName (normalizeName s) = normalizeName s := by
  have hmap := normalizeName_eq_map s
  have hstrip : pyStrip (normalizeName s) = normalizeName s := by
    apply pyStrip_eq_self
    · intro c hc
      rw [hmap, List.head?_map] at hc
      cases hc0 : (pyStrip s).head? with
      | none => rw [hc0] at hc; simp at hc
      | some c0 =>
        rw [hc0] at hc
        simp at hc
        rw [← hc]
        exact normChar_not_ws c0 (head?_pyStrip_not_ws s c0 hc0)
    · intro c hc
      rw [hmap, List.getLast?_map] at hc
      cases hc0 : (pyStrip s).getLast? with
      | none => rw [hc0] at hc; simp at hc
      | some c0 =>
        rw [hc0] at hc
        simp at hc
        rw [← hc]
        exact normChar_not_ws c0 (getLast?_pyStrip_not_ws s c0 hc0)
  rw [normalizeName_eq_map (normalizeName s), hstrip, hmap, List.map_map]
  exact List.map_congr_left fun a _ => normChar_fix a

/-! ### Claim C7 -/

/-- C7: the column-name normalization (trim, then lowercase, then replace
spaces with underscores) is idempotent on every header row: applying it twice
yields the same column names as applying it once. -/
theorem C7_normalize_idempotent (cols : List (List Nat)) :
    normalizeColumns (normalizeColumns cols) = normalizeColumns cols := by
  unfold normalizeColumns
  rw [List.map_map]
  exact List.map_congr_left fun s _ => normalizeName_idem s

/-! ### Helper lemmas: quality gate -/

theorem validate_isOk_false_iff (currentYear : Int) (t : QTable) :
    (validate currentYear t).isOk = false ↔
      (qcEmpty t = true ∨ qcMissingColumns t = true ∨ qcNullCountry t = true ∨
        qcNullYear t = true ∨ qcBadYear currentYear t = true ∨
        qcNegativeCo2 t = true) := by
  unfold validate
  split_ifs with h1 h2 h3 h4 h5 h6 <;> simp_all [Except.isOk, Except.toBool]

theorem qcEmpty_eq_true_iff (t : QTable) :
    qcEmpty t = true ↔ (t.rows = [] ∨ t.cols = []) := by
  simp [qcEmpty]

theorem qcMissingColumns_eq_true_iff (t : QTable) :
    qcMissingColumns t = true ↔ ("country" ∉ t.cols ∨ "year" ∉ t.cols) := by
  simp [qcMissingColumns]

theorem qcNullCountry_eq_true_iff (t : QTable) :
    qcNullCountry t = true ↔ ∃ r ∈ t.rows, r.country = none := by
  simp [qcNullCountry, Option.isNone_iff_eq_none]

theorem qcNullYear_eq_true_iff (t : QTable) :
    qcNullYear t = true ↔ ∃ r ∈ t.rows, r.year = none := by
  simp [qcNullYear, Option.isNone_iff_eq_none]

theorem qcBadYear_eq_true_iff (currentYear : Int) (t : QTable) :
    qcBadYear currentYear t = true ↔
      ∃ r ∈ t.rows, ∃ y : Int, r.year = some y ∧ (y < 1750 ∨ currentYear < y) := by
  unfold qcBadYear
  rw [List.any_eq_true]
  constructor
  · rintro ⟨r, hr, hp⟩
    refine ⟨r, hr, ?_⟩
    cases hy : r.year with
    | none => rw [hy] at hp; simp at hp
    | some y =>
      rw [hy] at hp
      simp at hp
      exact ⟨y, rfl, hp⟩
  · rintro ⟨r, hr, y, hy, hout⟩
    refine ⟨r, hr, ?_⟩
    rw [hy]
    simpa using hout

theorem qcNegativeCo2_eq_true_iff (t : QTable) :
    qcNegativeCo2 t = true ↔
      ("co2" ∈ t.cols ∧ ∃ r ∈ t.rows, ∃ c : Rat, r.co2 = some c ∧ c < 0) := by
  unfold qcNegativeCo2
  rw [Bool.and_eq_true, List.any_eq_true]
  constructor
  · rintro ⟨hc, r, hr, hp⟩
    refine ⟨by simpa using hc, r, hr, ?_⟩
    cases hco : r.co2 with
    | none => rw [hco] at hp; simp at hp
    | some c =>
      rw [hco] at hp
      simp at hp
      exact ⟨c, rfl, hp⟩
  · rintro ⟨hc, r, hr, c, hco, hneg⟩
    refine ⟨by simpa using hc, r, hr, ?_⟩
    rw [hco]
    simpa using hneg

/-! ### Helper lemmas: deduplication, enumeration and the string order -/

theorem mem_dropDupFirst {α : Type} [DecidableEq α] {a : α} :
    ∀ {l : List α}, a ∈ dropDupFirst l ↔ a ∈ l := by
  intro l
  induction l with
  | nil => simp [dropDupFirst]
  | cons b t ih =>
    simp only [dropDupFirst, List.mem_cons, List.mem_filter]
    constructor
    · rintro (rfl | ⟨h, _⟩)
      · exact Or.inl rfl
      · exact Or.inr (ih.mp h)
    · rintro (rfl | h)
      · exact Or.inl rfl
      · by_cases hab : a = b
        · exact Or.inl hab
        · exact Or.inr ⟨ih.mpr h, by simp [hab]⟩

theorem nodup_dropDupFirst {α : Type} [DecidableEq α] :
    ∀ l : List α, (dropDupFirst l).Nodup := by
  intro l
  induction l with
  | nil => simp [dropDupFirst]
  | cons b t ih =>
    rw [dropDupFirst, List.nodup_cons]
    constructor
    · intro hmem
      have h2 := (List.mem_filter.mp hmem).2
      simp at h2
    · exact List.Nodup.filter _ ih

theorem attachSk_map_fst {α : Type} :
    ∀ (k : Nat) (l : List α), (attachSk k l).map Prod.fst = l := by
  intro k l
  induction l generalizing k with
  | nil => rfl
  | cons a t ih => simp [attachSk, ih]

theorem attachSk_map_snd {α : Type} :
    ∀ (k : Nat) (l : List α), (attachSk k l).map Prod.snd = List.range' k l.length := by
  intro k l
  induction l generalizing k with
  | nil => rfl
  | cons a t ih => simp [attachSk, List.range'_succ, ih]

theorem attachSk_filter_fst {α : Type} (p : α → Bool) :
    ∀ (k : Nat) (l : List α),
      ((attachSk k l).filter (fun q => p q.1)).length = (l.filter p).length := by
  intro k l
  induction l generalizing k with
  | nil => rfl
  | cons a t ih =>
    by_cases hp : p a
    · simp [attachSk, List.filter_cons, hp, ih]
    · simp [attachSk, List.filter_cons, hp, ih]

theorem mem_attachSk_fst {α : Type} {p : α × Nat} :
    ∀ {k : Nat} {l : List α}, p ∈ attachSk k l → p.1 ∈ l := by
  intro k l h
  have : p.1 ∈ (attachSk k l).map Prod.fst := List.mem_map_of_mem _ h
  rwa [attachSk_map_fst] at this

theorem charListLe_antisymm :
    ∀ s t : List Char, charListLe s t = true → charListLe t s = true → s = t := by
  intro s
  induction s with
  | nil =>
    intro t _ h2
    cases t with
    | nil => rfl
    | cons y ys => simp [charListLe] at h2
  | cons x xs ih =>
    intro t h1 h2
    cases t with
    | nil => simp [charListLe] at h1
    | cons y ys =>
      simp only [charListLe] at h1 h2
      by_cases hxy : x < y
      · simp [lt_asymm hxy, hxy] at h2
      · by_cases hyx : y < x
        · simp [hxy, hyx] at h1
        · have hxe : x = y := le_antisymm (not_lt.mp hyx) (not_lt.mp hxy)
          subst hxe
          simp only [lt_irrefl, if_neg, if_false] at h1 h2
          rw [ih ys h1 h2]

theorem strLe_antisymm (a b : String) (h1 : strLe a b = true)
    (h2 : strLe b a = true) : a = b := by
  cases a with
  | mk da =>
    cases b with
    | mk db =>
      unfold strLe at h1 h2
      simp only at h1 h2
      rw [charListLe_antisymm da db h1 h2]

theorem strLt_true_iff (a b : String) :
    strLt a b = true ↔ strLe a b = true ∧ a ≠ b := by
  unfold strLt
  simp

/-! ### Helper lemmas: dimension build -/

theorem dimSelect_map_country_id (t : STable) :
    (dimSelect t).map (fun d => d.country_id) =
      t.rows.filterMap (fun r => r.iso_code) := by
  unfold dimSelect
  rw [List.map_filterMap]
  apply List.filterMap_congr
  intro r _
  cases r.iso_code <;> simp

theorem dimSorted_sorted (t : STable) : List.Sorted dimLe (dimSorted t) :=
  List.sorted_insertionSort dimLe (dropDupFirst (dimSelect t))

theorem dimSorted_perm (t : STable) :
    List.Perm (dimSorted t) (dropDupFirst (dimSelect t)) :=
  List.perm_insertionSort dimLe (dropDupFirst (dimSelect t))

theorem dedup_dimSelect_ids_nodup (t : STable)
    (hdet : ∀ d1 ∈ dimSelect t, ∀ d2 ∈ dimSelect t,
      d1.country_id = d2.country_id → d1 = d2) :
    ((dropDupFirst (dimSelect t)).map (fun d => d.country_id)).Nodup := by
  apply List.Nodup.map_on
  · intro x hx y hy hxy
    exact hdet x (mem_dropDupFirst.mp hx) y (mem_dropDupFirst.mp hy) hxy
  · exact nodup_dropDupFirst _

theorem dimSorted_ids_nodup (t : STable)
    (hdet : ∀ d1 ∈ dimSelect t, ∀ d2 ∈ dimSelect t,
      d1.country_id = d2.country_id → d1 = d2) :
    ((dimSorted t).map (fun d => d.country_id)).Nodup :=
  (((dimSorted_perm t).map _).nodup_iff).mpr (dedup_dimSelect_ids_nodup t hdet)

theorem dimSorted_length_eq_distinct_keys (t : STable)
    (hdet : ∀ d1 ∈ dimSelect t, ∀ d2 ∈ dimSelect t,
      d1.country_id = d2.country_id → d1 = d2) :
    (dimSorted t).length =
      (dropDupFirst (t.rows.filterMap (fun r => r.iso_code))).length := by
  rw [(dimSorted_perm t).length_eq]
  have hn1 := dedup_dimSelect_ids_nodup t hdet
  have hn2 := nodup_dropDupFirst (t.rows.filterMap (fun r => r.iso_code))
  have hmem : ∀ x, x ∈ (dropDupFirst (dimSelect t)).map (fun d => d.country_id) ↔
      x ∈ dropDupFirst (t.rows.filterMap (fun r => r.iso_code)) := by
    intro x
    rw [mem_dropDupFirst]
    constructor
    · intro hx
      rw [List.mem_map] at hx
      obtain ⟨d, hd, rfl⟩ := hx
      have hm : d.country_id ∈ (dimSelect t).map (fun d => d.country_id) :=
        List.mem_map_of_mem _ (mem_dropDupFirst.mp hd)
      rwa [dimSelect_map_country_id] at hm
    · intro hx
      rw [← dimSelect_map_country_id, List.mem_map] at hx
      rw [List.mem_map]
      obtain ⟨d, hd, rfl⟩ := hx
      exact ⟨d, mem_dropDupFirst.mpr hd, rfl⟩
  have hperm2 := (List.perm_ext_iff_of_nodup hn1 hn2).mpr hmem
  have hlen := hperm2.length_eq
  rwa [List.length_map] at hlen

theorem attachSk_sk_ordinal :
    ∀ (l : List DimRow) (k : Nat), List.Sorted dimLe l →
      ((l.map (fun d => d.country_id)).Nodup) →
      ∀ p ∈ attachSk k l,
        p.2 = k + (l.filter (fun x => strLt x.country_id p.1.country_id)).length := by
  intro l
  induction l with
  | nil => intro k _ _ p hp; simp [attachSk] at hp
  | cons a tl ih =>
    intro k hs hn p hp
    rw [List.sorted_cons] at hs
    obtain ⟨ha, hs'⟩ := hs
    rw [List.map_cons, List.nodup_cons] at hn
    obtain ⟨hna, hn'⟩ := hn
    rw [attachSk] at hp
    rcases List.mem_cons.mp hp with rfl | hp'
    · have hf : (a :: tl).filter (fun x => strLt x.country_id a.country_id) = [] := by
        rw [List.filter_eq_nil_iff]
        intro x hx hlt
        rcases List.mem_cons.mp hx with rfl | hx'
        · simp [strLt] at hlt
        · rw [strLt_true_iff] at hlt
          have hba := ha x hx'
          have hxa := strLe_antisymm _ _ hlt.1 hba
          have hmm : x.country_id ∈ tl.map (fun d => d.country_id) :=
            List.mem_map_of_mem _ hx'
          rw [hxa] at hmm
          exact hna hmm
      rw [hf]
      rfl
    · have hval := ih (k + 1) hs' hn' p hp'
      have hhead : strLt a.country_id p.1.country_id = true := by
        have hmem : p.1 ∈ tl := mem_attachSk_fst hp'
        rw [strLt_true_iff]
        refine ⟨ha p.1 hmem, ?_⟩
        intro he
        have hmm : p.1.country_id ∈ tl.map (fun d => d.country_id) :=
          List.mem_map_of_mem _ hmem
        rw [← he] at hmm
        exact hna hmm
      rw [List.filter_cons, if_pos (by simp [hhead]), List.length_cons, hval]
      omega

/-! ### Claim C1 -/

/-- C1, counterexample.  On `exDup` the natural key `USA` appears with two
distinct display names, so exact-tuple deduplication keeps two rows for one
natural key: the surrogate keys are `[1, 2]` although the number of distinct
non-null natural keys is 1 — the keys do not form the dense sequence `1..K`
with `K` the number of distinct natural keys, as the claim states. -/
theorem C1_counterexample :
    (dim_country exDup).map Prod.snd = [1, 2] ∧
    (dropDupFirst (exDup.rows.filterMap (fun r => r.iso_code))).length = 1 ∧
    (dim_country exDup).map Prod.snd ≠
      List.range' 1 (dropDupFirst (exDup.rows.filterMap (fun r => r.iso_code))).length := by
  refine ⟨by decide, by decide, by decide⟩

/-- C1 (amended): when the natural key determines the selected dimension
attributes, the surrogate keys `country_sk` form the dense sequence `1..K`
with `K` the number of distinct non-null natural keys, the dimension rows are
in ascending natural-key order, and each surrogate key is the 1-based ordinal
position of its natural key in that order.  (Re-running on identical input is
identical by construction: the build is a pure function of the table.) -/
theorem C1_dim_surrogate_keys (t : STable)
    (hdet : ∀ d1 ∈ dimSelect t, ∀ d2 ∈ dimSelect t,
      d1.country_id = d2.country_id → d1 = d2) :
    (dim_country t).map Prod.snd =
      List.range' 1 (dropDupFirst (t.rows.filterMap (fun r => r.iso_code))).length ∧
    List.Sorted (fun a b => strLe a b = true)
      ((dim_country t).map (fun p => p.1.country_id)) ∧
    (∀ p ∈ dim_country t,
      p.2 = 1 + ((dim_country t).filter
        (fun q => strLt q.1.country_id p.1.country_id)).length) := by
  refine ⟨?_, ?_, ?_⟩
  · rw [dim_country, attachSk_map_snd, dimSorted_length_eq_distinct_keys t hdet]
  · have heq : (dim_country t).map (fun p => p.1.country_id) =
        (dimSorted t).map (fun d => d.country_id) := by
      rw [dim_country,
        show (fun (p : DimRow × Nat) => p.1.country_id) =
          ((fun d : DimRow => d.country_id) ∘ Prod.fst) from rfl,
        ← List.map_map, attachSk_map_fst]
    rw [heq]
    exact List.Pairwise.map _ (fun a b hab => hab) (dimSorted_sorted t)
  · intro p hp
    rw [dim_country] at hp ⊢
    rw [attachSk_filter_fst (fun x => strLt x.country_id p.1.country_id) 1 (dimSorted t)]
    exact attachSk_sk_ordinal (dimSorted t) 1 (dimSorted_sorted t)
      (dimSorted_ids_nodup t hdet) p hp

/-- C1, witness: on `exDim3` (keys `USA`, `AFG`, `DEU` arriving unsorted) the
amended theorem applies and the surrogate keys are `1, 2, 3` in sorted key
order `AFG, DEU, USA`. -/
theorem C1_witness :
    (dim_country exDim3).map Prod.snd = [1, 2, 3] ∧
    (dim_country exDim3).map (fun p => p.1.country_id) = ["AFG", "DEU", "USA"] := by
  have h := (C1_dim_surrogate_keys exDim3 (by decide)).1
  rw [h]
  exact ⟨by decide, by decide⟩

/-! ### Helper lemmas: fact build -/

theorem filter_key_length_le_one {α : Type} (key : α → String) (l : List α)
    (hn : (l.map key).Nodup) (c : Option String) :
    (l.filter (fun d => decide (c = some (key d)))).length ≤ 1 := by
  induction l with
  | nil => simp
  | cons a tl ih =>
    rw [List.map_cons, List.nodup_cons] at hn
    obtain ⟨hna, hn'⟩ := hn
    rw [List.filter_cons]
    by_cases hc : c = some (key a)
    · rw [if_pos (by simp [hc])]
      have hrest : tl.filter (fun d => decide (c = some (key d))) = [] := by
        rw [List.filter_eq_nil_iff]
        intro x hx hcx
        simp only [decide_eq_true_eq] at hcx
        rw [hc] at hcx
        have : key a = key x := Option.some.inj hcx
        exact hna (this ▸ List.mem_map_of_mem _ hx)
      rw [hrest]
      simp
    · rw [if_neg (by simp [hc])]
      exact ih hn'

theorem dim_country_ids_nodup (t : STable)
    (hdet : ∀ d1 ∈ dimSelect t, ∀ d2 ∈ dimSelect t,
      d1.country_id = d2.country_id → d1 = d2) :
    ((dim_country t).map (fun p => p.1.country_id)).Nodup := by
  have heq : (dim_country t).map (fun p => p.1.country_id) =
      (dimSorted t).map (fun d => d.country_id) := by
    rw [dim_country,
      show (fun (p : DimRow × Nat) => p.1.country_id) =
        ((fun d : DimRow => d.country_id) ∘ Prod.fst) from rfl,
      ← List.map_map, attachSk_map_fst]
  rw [heq]
  exact dimSorted_ids_nodup t hdet

theorem factMatches_length_le_one (t : STable) (r : SRow)
    (hdet : ∀ d1 ∈ dimSelect t, ∀ d2 ∈ dimSelect t,
      d1.country_id = d2.country_id → d1 = d2) :
    (factMatches t r).length ≤ 1 :=
  filter_key_length_le_one (fun p : DimRow × Nat => p.1.country_id)
    (dim_country t) (dim_country_ids_nodup t hdet) r.iso_code

theorem flatMap_singleton_length {α β : Type} (g : α → List β) (l : List α)
    (h : ∀ a ∈ l, (g a).length = 1) : (l.flatMap g).length = l.length := by
  induction l with
  | nil => rfl
  | cons a tl ih =>
    rw [List.flatMap_cons, List.length_append, h a (List.mem_cons_self a tl),
      ih (fun x hx => h x (List.mem_cons_of_mem a hx)), List.length_cons]
    omega

/-! ### Claim C2 -/

/-- C2, counterexample.  On `exDup` the dimension table holds two rows with
the same natural key `USA`, so the left join matches each of the two Silver
rows twice: the fact table has 4 rows while the Silver table has 2 — the
join does duplicate rows. -/
theorem C2_counterexample :
    (fact_emissions exDup).length = 4 ∧ exDup.rows.length = 2 ∧
    (fact_emissions exDup).length ≠ exDup.rows.length := by
  refine ⟨by decide, by decide, by decide⟩

/-- C2 (amended): for every Silver table, a Silver row whose natural key
matches no dimension row is retained as a fact row with a null `country_sk`
rather than being dropped; and when the natural key determines the selected
dimension attributes (so dimension natural keys are unique), the fact table
has exactly as many rows as the Silver table. -/
theorem C2_fact_row_count (t : STable) :
    (∀ r ∈ t.rows, factMatches t r = [] →
      (⟨none, r.year, r.co2⟩ : FactRow) ∈ fact_emissions t) ∧
    ((∀ d1 ∈ dimSelect t, ∀ d2 ∈ dimSelect t,
        d1.country_id = d2.country_id → d1 = d2) →
      (fact_emissions t).length = t.rows.length) := by
  constructor
  · intro r hr hm
    rw [fact_emissions, List.mem_flatMap]
    exact ⟨r, hr, by rw [hm]; simp⟩
  · intro hdet
    rw [fact_emissions]
    apply flatMap_singleton_length
    intro r _
    cases hm : factMatches t r with
    | nil => rfl
    | cons m ms =>
      have hle := factMatches_length_le_one t r hdet
      rw [hm] at hle
      simp only [List.length_cons] at hle
      have hms : ms = [] := List.eq_nil_of_length_eq_zero (by omega)
      subst hms
      rfl

/-- C2, witness: on `exNullIso` the null-key row matches no dimension row
yet appears in the fact table with a null `country_sk`, and the fact table
row count equals the Silver row count (2). -/
theorem C2_witness :
    (⟨none, 2000, some 2⟩ : FactRow) ∈ fact_emissions exNullIso ∧
    (fact_emissions exNullIso).length = exNullIso.rows.length := by
  constructor
  · exact (C2_fact_row_count exNullIso).1
      ⟨none, some "Kosovo", none, 2000, some 2⟩ (by decide) (by decide)
  · exact (C2_fact_row_count exNullIso).2 (by decide)

/-! ### Claim C3 -/

/-- C3, counterexample.  On `exNoCo2` (no `co2` column) the Gold stage does
raise the configuration error, but the dimension and fact tables have already
been written: the write list is not empty, contradicting the claim that no
Gold table is written. -/
theorem C3_counterexample :
    (goldStage exNoCo2).2 = some "Expected co2 column not found in fact table" ∧
    GoldWrite.dimTable (dim_country exNoCo2) ∈ (goldStage exNoCo2).1 ∧
    (goldStage exNoCo2).1 ≠ [] := by
  refine ⟨by decide, by decide, by decide⟩

/-- C3 (amended): if the `co2` column is absent from the fact table, the Gold
stage raises the configuration error `ValueError` before any aggregate is
computed or written; the dimension and fact tables, which are written before
the check runs, are the only writes performed. -/
theorem C3_missing_co2_aborts_aggregates (t : STable)
    (h : factHasCo2 t = false) :
    goldStage t =
      ([GoldWrite.dimTable (dim_country t), GoldWrite.factTable (fact_emissions t)],
        some "Expected co2 column not found in fact table") := by
  rw [goldStage, h]
  simp

/-- C3, witness: the amended theorem applied to `exNoCo2`. -/
theorem C3_witness :
    goldStage exNoCo2 =
      ([GoldWrite.dimTable (dim_country exNoCo2),
        GoldWrite.factTable (fact_emissions exNoCo2)],
        some "Expected co2 column not found in fact table") :=
  C3_missing_co2_aborts_aggregates exNoCo2 rfl

/-! ### Claim C4 -/

/-- C4: the Quality Gate raises (with a message naming the failed check)
exactly when the table is empty, a required column is missing, `country` or
`year` contains a null, a `year` lies outside `[1750, current_year]`, or a
`co2` column exists and holds a negative value; when it raises, nothing is
written to Silver storage, and otherwise the Silver table is written. -/
theorem C4_quality_gate (currentYear : Int) (t : QTable) :
    ((validate currentYear t).isOk = false ↔
      (t.rows = [] ∨ t.cols = [] ∨ "country" ∉ t.cols ∨ "year" ∉ t.cols ∨
        (∃ r ∈ t.rows, r.country = none) ∨ (∃ r ∈ t.rows, r.year = none) ∨
        (∃ r ∈ t.rows, ∃ y : Int, r.year = some y ∧ (y < 1750 ∨ currentYear < y)) ∨
        ("co2" ∈ t.cols ∧ ∃ r ∈ t.rows, ∃ c : Rat, r.co2 = some c ∧ c < 0))) ∧
    (∀ e : String, validate currentYear t = .error e → e ∈ qualityMessages) ∧
    ((validate currentYear t).isOk = false → (silverStage currentYear t).1 = []) ∧
    ((validate currentYear t).isOk = true →
      (silverStage currentYear t).1 = [SilverArtifact.silverTable t]) := by
  refine ⟨?_, ?_, ?_, ?_⟩
  · rw [validate_isOk_false_iff, qcEmpty_eq_true_iff, qcMissingColumns_eq_true_iff,
      qcNullCountry_eq_true_iff, qcNullYear_eq_true_iff, qcBadYear_eq_true_iff,
      qcNegativeCo2_eq_true_iff]
    simp only [or_assoc]
  · intro e he
    rw [validate] at he
    split_ifs at he <;> simp_all [qualityMessages]
  · intro h
    cases hv : validate currentYear t with
    | ok u => rw [hv] at h; simp [Except.isOk, Except.toBool] at h
    | error e => simp [silverStage, hv]
  · intro h
    cases hv : validate currentYear t with
    | ok u => simp [silverStage, hv]
    | error e => rw [hv] at h; simp [Except.isOk, Except.toBool] at h

/-- C4, witness: `qtGood` passes every check, so the Silver table is
written. -/
theorem C4_witness :
    (silverStage 2024 qtGood).1 = [SilverArtifact.silverTable qtGood] :=
  (C4_quality_gate 2024 qtGood).2.2.2 (by decide)

/-! ### Claim C8 -/

/-- C8: a table whose `co2` column contains nulls but no negative values
passes validation when the remaining checks hold — the negative-value check
`df["co2"] < 0` is false at null cells and never raises on them. -/
theorem C8_null_co2_passes (currentYear : Int) (t : QTable)
    (hcol : "co2" ∈ t.cols)
    (hnull : ∃ r ∈ t.rows, r.co2 = none)
    (hnoneg : ∀ r ∈ t.rows, ∀ c : Rat, r.co2 = some c → 0 ≤ c)
    (hrows : t.rows ≠ []) (hcols : t.cols ≠ [])
    (hcountry : "country" ∈ t.cols) (hyear : "year" ∈ t.cols)
    (hnc : ∀ r ∈ t.rows, r.country ≠ none)
    (hny : ∀ r ∈ t.rows, ∃ y : Int, r.year = some y ∧ 1750 ≤ y ∧ y ≤ currentYear) :
    validate currentYear t = .ok () := by
  have h1 : qcEmpty t = false := by
    cases hb : qcEmpty t with
    | false => rfl
    | true =>
      rcases (qcEmpty_eq_true_iff t).mp hb with h | h
      · exact absurd h hrows
      · exact absurd h hcols
  have h2 : qcMissingColumns t = false := by
    cases hb : qcMissingColumns t with
    | false => rfl
    | true =>
      rcases (qcMissingColumns_eq_true_iff t).mp hb with h | h
      · exact absurd hcountry h
      · exact absurd hyear h
  have h3 : qcNullCountry t = false := by
    cases hb : qcNullCountry t with
    | false => rfl
    | true =>
      obtain ⟨r, hr, hnone⟩ := (qcNullCountry_eq_true_iff t).mp hb
      exact absurd hnone (hnc r hr)
  have h4 : qcNullYear t = false := by
    cases hb : qcNullYear t with
    | false => rfl
    | true =>
      obtain ⟨r, hr, hnone⟩ := (qcNullYear_eq_true_iff t).mp hb
      obtain ⟨y, hy, _, _⟩ := hny r hr
      rw [hy] at hnone
      exact Option.noConfusion hnone
  have h5 : qcBadYear currentYear t = false := by
    cases hb : qcBadYear currentYear t with
    | false => rfl
    | true =>
      obtain ⟨r, hr, y, hy, hout⟩ := (qcBadYear_eq_true_iff currentYear t).mp hb
      obtain ⟨y', hy', hlo, hhi⟩ := hny r hr
      rw [hy'] at hy
      have hyy : y' = y := Option.some.inj hy
      subst hyy
      rcases hout with h | h <;> omega
  have h6 : qcNegativeCo2 t = false := by
    cases hb : qcNegativeCo2 t with
    | false => rfl
    | true =>
      obtain ⟨_, r, hr, c, hco, hneg⟩ := (qcNegativeCo2_eq_true_iff t).mp hb
      have := hnoneg r hr c hco
      linarith
  simp [validate, h1, h2, h3, h4, h5, h6]

/-- C8, witness: `qtGood` has a null `co2` cell, no negative `co2`, and
passes validation. -/
theorem C8_witness : validate 2024 qtGood = .ok () := by
  refine C8_null_co2_passes 2024 qtGood (by decide) (by decide) ?_ (by decide)
    (by decide) (by decide) (by decide) ?_ ?_
  · intro r hr c hc
    simp only [qtGood, List.mem_cons, List.mem_singleton] at hr
    rcases hr with rfl | rfl | h
    · exact Option.noConfusion hc
    · have hc3 : (3 : Rat) = c := Option.some.inj hc
      rw [← hc3]
      norm_num
    · exact absurd h (List.not_mem_nil r)
  · intro r hr
    simp only [qtGood, List.mem_cons, List.mem_singleton] at hr
    rcases hr with rfl | rfl | h
    · simp
    · simp
    · exact absurd h (List.not_mem_nil r)
  · intro r hr
    simp only [qtGood, List.mem_cons, List.mem_singleton] at hr
    rcases hr with rfl | rfl | h
    · exact ⟨2000, rfl, by norm_num, by norm_num⟩
    · exact ⟨2001, rfl, by norm_num, by norm_num⟩
    · exact absurd h (List.not_mem_nil r)

/-! ### Helper lemmas: rounding and the global rollup -/

theorem roundHalfEven_intCast (k : Int) : roundHalfEven ((k : Rat)) = k := by
  simp only [roundHalfEven, Int.floor_intCast, sub_self]
  norm_num

theorem roundTo_intCast (n : Nat) (k : Int) : roundTo n ((k : Rat)) = k := by
  unfold roundTo
  have h1 : ((k : Rat) * (10 : Rat) ^ n) = ((k * 10 ^ n : Int) : Rat) := by
    push_cast
    ring
  rw [h1, roundHalfEven_intCast]
  push_cast
  rw [mul_div_assoc, div_self (pow_ne_zero n (by norm_num)), mul_one]

theorem mem_aggYears (fact : List FactRow) (y : Int) :
    y ∈ aggYears fact ↔ ∃ r ∈ fact, r.year = y := by
  unfold aggYears
  rw [(List.perm_insertionSort _ _).mem_iff, mem_dropDupFirst, List.mem_map]

/-! ### Claim C6 -/

/-- C6: every global-rollup row carries, for its year, the sum of `co2`
rounded to 2 places, the mean of `co2` rounded to 4 places, and the count of
distinct non-null `country_sk` values; every year occurring in the fact table
gets a row; a row with a null `country_sk` never changes the distinct count;
and on `co2 = [10, 20, 30]` from 3 countries the result is
`(2020, 60.00, 20.0000, 3)`. -/
theorem C6_global_rollup (fact : List FactRow) :
    (∀ a ∈ agg_global fact,
      (∃ r ∈ fact, r.year = a.year) ∧
      a.total_co2 = roundTo 2 (sumCo2 fact a.year) ∧
      a.avg_co2 = (meanCo2 fact a.year).map (roundTo 4) ∧
      a.country_count = skCount fact a.year) ∧
    (∀ y : Int, (∃ r ∈ fact, r.year = y) → ∃ a ∈ agg_global fact, a.year = y) ∧
    (∀ y : Int, ∀ r : FactRow, r.country_sk = none →
      skCount (r :: fact) y = skCount fact y) ∧
    agg_global exAgg = [⟨2020, 60, some 20, 3⟩] := by
  refine ⟨?_, ?_, ?_, ?_⟩
  · intro a ha
    rw [agg_global, List.mem_map] at ha
    obtain ⟨y, hy, rfl⟩ := ha
    exact ⟨(mem_aggYears fact y).mp hy, rfl, rfl, rfl⟩
  · intro y hy
    refine ⟨⟨y, roundTo 2 (sumCo2 fact y), (meanCo2 fact y).map (roundTo 4),
      skCount fact y⟩, ?_, rfl⟩
    rw [agg_global, List.mem_map]
    exact ⟨y, (mem_aggYears fact y).mpr hy, rfl⟩
  · intro y r hsk
    rw [skCount, skCount, yearRows, yearRows, List.filter_cons]
    by_cases hyr : r.year = y
    · rw [if_pos (by simp [hyr]), List.filterMap_cons, hsk]
    · rw [if_neg (by simp [hyr])]
  · have hyears : aggYears exAgg = [2020] := by decide
    have hsum : sumCo2 exAgg 2020 = 60 := by
      norm_num [sumCo2, co2Values, yearRows, exAgg, List.filterMap_cons,
        List.sum_cons]
    have hmean : meanCo2 exAgg 2020 = some 20 := by
      norm_num [meanCo2, co2Values, yearRows, exAgg, List.filterMap_cons,
        List.sum_cons]
    have hsk : skCount exAgg 2020 = 3 := by decide
    rw [agg_global, hyears, List.map_cons, List.map_nil, hsum, hmean, hsk]
    rw [show ((60 : Rat)) = (((60 : Int)) : Rat) by norm_num, roundTo_intCast]
    rw [show (Option.map (roundTo 4) (some 20) : Option Rat) =
      some (roundTo 4 (((20 : Int)) : Rat)) by norm_num, roundTo_intCast]
    norm_num

/-- C6, witness: the row-characterization applied to `exAgg` at its output
row. -/
theorem C6_witness :
    (⟨2020, 60, some 20, 3⟩ : AggRow).total_co2 = roundTo 2 (sumCo2 exAgg 2020) := by
  have h := (C6_global_rollup exAgg).1 ⟨2020, 60, some 20, 3⟩
    (by rw [(C6_global_rollup exAgg).2.2.2]; simp)
  exact h.2.1

/-! ### Helper lemmas: null surrogate keys and the grouping -/

theorem filterMap_keys_filter_isSome (fact : List FactRow) :
    (fact.filter (fun r => r.country_sk.isSome)).filterMap
        (fun r => r.country_sk.map (fun sk => (r.year, sk))) =
      fact.filterMap (fun r => r.country_sk.map (fun sk => (r.year, sk))) := by
  induction fact with
  | nil => rfl
  | cons r tl ih =>
    cases hsk : r.country_sk with
    | none => simp [List.filter_cons, List.filterMap_cons, hsk, ih]
    | some sk => simp [List.filter_cons, List.filterMap_cons, hsk, ih]

theorem groupTotal_filter_isSome (fact : List FactRow) (y : Int) (sk : Nat) :
    groupTotal (fact.filter (fun r => r.country_sk.isSome)) y sk =
      groupTotal fact y sk := by
  have hf : (fact.filter (fun r => r.country_sk.isSome)).filter
      (fun r => decide (r.year = y) && decide (r.country_sk = some sk)) =
      fact.filter (fun r => decide (r.year = y) && decide (r.country_sk = some sk)) := by
    rw [List.filter_filter]
    apply List.filter_congr
    intro r _
    cases hsk : r.country_sk <;> simp [hsk]
  rw [groupTotal, groupTotal, hf]

theorem cye_filter_isSome (fact : List FactRow) :
    country_year_emissions (fact.filter (fun r => r.country_sk.isSome)) =
      country_year_emissions fact := by
  rw [country_year_emissions, country_year_emissions, groupKeys, groupKeys,
    filterMap_keys_filter_isSome]
  apply List.map_congr_left
  intro k _
  rw [groupTotal_filter_isSome]

/-! ### Claim C9 -/

/-- C9: fact rows with a null `country_sk` are entirely excluded from the
top-emitters computation — restricting the fact table to rows with a non-null
key changes nothing, and adding a null-key row changes nothing; every output
row carries a (non-null) `country_sk` by construction of the grouping. -/
theorem C9_null_keys_excluded (fact : List FactRow) :
    top_emitters (fact.filter (fun r => r.country_sk.isSome)) = top_emitters fact ∧
    (∀ r : FactRow, r.country_sk = none →
      top_emitters (r :: fact) = top_emitters fact) := by
  have key : ∀ l : List FactRow,
      top_emitters (l.filter (fun r => r.country_sk.isSome)) = top_emitters l := by
    intro l
    rw [top_emitters, top_emitters, rankedEmissions, rankedEmissions,
      cye_filter_isSome]
  refine ⟨key fact, ?_⟩
  intro r hsk
  have h2 : (r :: fact).filter (fun x => x.country_sk.isSome) =
      fact.filter (fun x => x.country_sk.isSome) := by
    rw [List.filter_cons, if_neg (by simp [hsk])]
  calc top_emitters (r :: fact)
      = top_emitters ((r :: fact).filter (fun x => x.country_sk.isSome)) :=
        (key (r :: fact)).symm
    _ = top_emitters (fact.filter (fun x => x.country_sk.isSome)) := by rw [h2]
    _ = top_emitters fact := key fact

/-- C9, witness: on `exNullSk` (one null-key row among three) the exclusion
equality holds concretely. -/
theorem C9_witness :
    top_emitters (exNullSk.filter (fun r => r.country_sk.isSome)) =
      top_emitters exNullSk :=
  (C9_null_keys_excluded exNullSk).1

/-! ### Helper lemmas: ranking -/

theorem cye_eq_map (fact : List FactRow) :
    country_year_emissions fact =
      (groupKeys fact).map (fun k => (k.1, k.2, groupTotal fact k.1 k.2)) := rfl

theorem mem_cye {fact : List FactRow} {g : Int × Nat × Rat} :
    g ∈ country_year_emissions fact ↔
      (g.1, g.2.1) ∈ groupKeys fact ∧ g.2.2 = groupTotal fact g.1 g.2.1 := by
  rw [cye_eq_map, List.mem_map]
  constructor
  · rintro ⟨k, hk, rfl⟩
    exact ⟨hk, rfl⟩
  · rintro ⟨hk, hg⟩
    refine ⟨(g.1, g.2.1), hk, ?_⟩
    rw [← hg]

theorem mem_rankedEmissions {fact : List FactRow} {g : TERow} :
    g ∈ rankedEmissions fact ↔
      (g.year, g.country_sk) ∈ groupKeys fact ∧
      g.total_co2 = groupTotal fact g.year g.country_sk ∧
      g.rank = denseRank (country_year_emissions fact) g.year g.total_co2 := by
  rw [rankedEmissions, List.mem_map]
  constructor
  · rintro ⟨c, hc, rfl⟩
    rw [mem_cye] at hc
    exact ⟨hc.1, hc.2, rfl⟩
  · rintro ⟨hk, ht, hr⟩
    obtain ⟨gy, gsk, gt, gr⟩ := g
    refine ⟨(gy, gsk, gt), mem_cye.mpr ⟨hk, ht⟩, ?_⟩
    simp only at hr
    rw [hr]

theorem mem_top_emitters {fact : List FactRow} {g : TERow} :
    g ∈ top_emitters fact ↔ g ∈ rankedEmissions fact ∧ g.rank ≤ TOP_N := by
  rw [top_emitters, (List.perm_insertionSort _ _).mem_iff, List.mem_filter]
  simp

theorem mem_groupKeys {fact : List FactRow} {k : Int × Nat} :
    k ∈ groupKeys fact ↔ ∃ r ∈ fact, r.year = k.1 ∧ r.country_sk = some k.2 := by
  rw [groupKeys, (List.perm_insertionSort _ _).mem_iff, mem_dropDupFirst,
    List.mem_filterMap]
  constructor
  · rintro ⟨r, hr, hk⟩
    cases hsk : r.country_sk with
    | none => rw [hsk] at hk; exact absurd hk (by simp)
    | some sk =>
      rw [hsk] at hk
      have hks := Option.some.inj hk
      exact ⟨r, hr, by rw [← hks], by rw [hsk, ← hks]⟩
  · rintro ⟨r, hr, hy, hsk⟩
    exact ⟨r, hr, by simp [hsk, hy]⟩

theorem exists_min_of_ne_nil : ∀ (l : List Rat), l ≠ [] → ∃ w ∈ l, ∀ x ∈ l, w ≤ x := by
  intro l
  induction l with
  | nil => intro h; exact absurd rfl h
  | cons a tl ih =>
    intro _
    by_cases htl : tl = []
    · subst htl
      refine ⟨a, List.mem_cons_self a [], ?_⟩
      intro x hx
      rcases List.mem_cons.mp hx with rfl | hx'
      · exact le_refl x
      · exact absurd hx' (List.not_mem_nil x)
    · obtain ⟨w, hw, hmin⟩ := ih htl
      by_cases haw : a ≤ w
      · refine ⟨a, List.mem_cons_self a tl, ?_⟩
        intro x hx
        rcases List.mem_cons.mp hx with rfl | hx'
        · exact le_refl x
        · exact le_trans haw (hmin x hx')
      · refine ⟨w, List.mem_cons_of_mem a hw, ?_⟩
        intro x hx
        rcases List.mem_cons.mp hx with rfl | hx'
        · exact le_of_not_le haw
        · exact hmin x hx'

theorem denseRank_no_gap (fact : List FactRow) (y : Int) (v : Rat)
    (hr2 : 2 ≤ denseRank (country_year_emissions fact) y v) :
    ∃ g' ∈ rankedEmissions fact, g'.year = y ∧
      g'.rank = denseRank (country_year_emissions fact) y v - 1 := by
  have hGlen : denseRank (country_year_emissions fact) y v =
      1 + ((yearDistinctTotals (country_year_emissions fact) y).filter
        (fun w => decide (v < w))).length := rfl
  have hGne : (yearDistinctTotals (country_year_emissions fact) y).filter
      (fun w => decide (v < w)) ≠ [] := by
    intro h0
    rw [hGlen, h0] at hr2
    simp at hr2
  obtain ⟨w, hwG, hwmin⟩ := exists_min_of_ne_nil _ hGne
  have hvw : v < w := by
    have h := (List.mem_filter.mp hwG).2
    simpa using h
  have hwTy : w ∈ yearDistinctTotals (country_year_emissions fact) y :=
    (List.mem_filter.mp hwG).1
  have hfilter : (yearDistinctTotals (country_year_emissions fact) y).filter
      (fun x => decide (w < x)) =
      ((yearDistinctTotals (country_year_emissions fact) y).filter
        (fun x => decide (v < x))).filter (fun x => x != w) := by
    rw [List.filter_filter]
    apply List.filter_congr
    intro x hxTy
    by_cases hwx : w < x
    · have h2 : v < x := lt_trans hvw hwx
      simp [hwx, ne_of_gt hwx, h2]
    · by_cases hvx : v < x
      · have hxG : x ∈ (yearDistinctTotals (country_year_emissions fact) y).filter
            (fun z => decide (v < z)) :=
          List.mem_filter.mpr ⟨hxTy, by simp [hvx]⟩
        have hxw : x = w := le_antisymm (not_lt.mp hwx) (hwmin x hxG)
        subst hxw
        simp [hwx]
      · simp [hwx, hvx]
  have hnodupG : (((yearDistinctTotals (country_year_emissions fact) y)).filter
      (fun w => decide (v < w))).Nodup :=
    List.Nodup.filter _ (nodup_dropDupFirst _)
  have hlen2 : (((yearDistinctTotals (country_year_emissions fact) y).filter
      (fun x => decide (v < x))).filter (fun x => x != w)).length =
      ((yearDistinctTotals (country_year_emissions fact) y).filter
        (fun x => decide (v < x))).length - 1 := by
    rw [← List.Nodup.erase_eq_filter hnodupG w, List.length_erase_of_mem hwG]
  have hrankw : denseRank (country_year_emissions fact) y w =
      denseRank (country_year_emissions fact) y v - 1 := by
    have hpos : 0 < ((yearDistinctTotals (country_year_emissions fact) y).filter
        (fun x => decide (v < x))).length := List.length_pos.mpr hGne
    rw [denseRank, hfilter, hlen2, hGlen]
    omega
  rw [yearDistinctTotals, mem_dropDupFirst, List.mem_map] at hwTy
  obtain ⟨c, hc, hcw⟩ := hwTy
  have hcy : c.1 = y := by
    have h := (List.mem_filter.mp hc).2
    simpa using h
  have hccye : c ∈ country_year_emissions fact := (List.mem_filter.mp hc).1
  rw [mem_cye] at hccye
  refine ⟨⟨y, c.2.1, w, denseRank (country_year_emissions fact) y w⟩, ?_, rfl, hrankw⟩
  rw [mem_rankedEmissions]
  refine ⟨?_, ?_, rfl⟩
  · simp only
    rw [← hcy]
    exact hccye.1
  · simp only
    rw [← hcw, ← hcy]
    exact hccye.2

/-! ### Claim C5 -/

/-- C5: every top-emitters row is a `(year, country_sk)` group of the fact
table carrying the summed measure and its within-year dense rank; exactly the
groups with rank at most 10 are retained; equal sums within a year share a
rank; ranks have no gaps (a retained rank `r ≥ 2` implies some group of the
same year has rank `r - 1`, also retained); the output is sorted by
`(year, rank)`; and on summed measures `[100, 100, 90]` the two groups at
`100` both get rank 1 and the group at `90` gets rank 2. -/
theorem C5_top_emitters (fact : List FactRow) :
    (∀ g ∈ top_emitters fact,
      (g.year, g.country_sk) ∈ groupKeys fact ∧
      g.total_co2 = groupTotal fact g.year g.country_sk ∧
      g.rank = denseRank (country_year_emissions fact) g.year g.total_co2 ∧
      g.rank ≤ TOP_N) ∧
    (∀ g ∈ rankedEmissions fact, g.rank ≤ TOP_N → g ∈ top_emitters fact) ∧
    (∀ g ∈ top_emitters fact, ∀ g' ∈ top_emitters fact,
      g.year = g'.year → g.total_co2 = g'.total_co2 → g.rank = g'.rank) ∧
    (∀ g ∈ top_emitters fact, 2 ≤ g.rank →
      ∃ g' ∈ top_emitters fact, g'.year = g.year ∧ g'.rank = g.rank - 1) ∧
    List.Sorted teLe (top_emitters fact) ∧
    top_emitters exTie =
      [⟨2000, 1, 100, 1⟩, ⟨2000, 2, 100, 1⟩, ⟨2000, 3, 90, 2⟩] := by
  refine ⟨?_, ?_, ?_, ?_, ?_, ?_⟩
  · intro g hg
    obtain ⟨hr, hn⟩ := mem_top_emitters.mp hg
    obtain ⟨hk, ht, hrk⟩ := mem_rankedEmissions.mp hr
    exact ⟨hk, ht, hrk, hn⟩
  · intro g hg hn
    exact mem_top_emitters.mpr ⟨hg, hn⟩
  · intro g hg g' hg' hy ht
    obtain ⟨hr, _⟩ := mem_top_emitters.mp hg
    obtain ⟨_, _, hrk⟩ := mem_rankedEmissions.mp hr
    obtain ⟨hr', _⟩ := mem_top_emitters.mp hg'
    obtain ⟨_, _, hrk'⟩ := mem_rankedEmissions.mp hr'
    rw [hrk, hrk', hy, ht]
  · intro g hg h2
    obtain ⟨hr, hn⟩ := mem_top_emitters.mp hg
    obtain ⟨_, _, hrk⟩ := mem_rankedEmissions.mp hr
    rw [hrk] at h2
    obtain ⟨g', hg', hgy, hgr⟩ :=
      denseRank_no_gap fact g.year g.total_co2 h2
    rw [← hrk] at hgr
    refine ⟨g', mem_top_emitters.mpr ⟨hg', ?_⟩, hgy, hgr⟩
    rw [hgr]
    omega
  · rw [top_emitters]
    exact List.sorted_insertionSort teLe _
  · have hkeys : groupKeys exTie = [(2000, 1), (2000, 2), (2000, 3)] := by decide
    have ht1 : groupTotal exTie 2000 1 = 100 := by
      norm_num [groupTotal, exTie, List.filterMap_cons, List.sum_cons]
    have ht2 : groupTotal exTie 2000 2 = 100 := by
      norm_num [groupTotal, exTie, List.filterMap_cons, List.sum_cons]
    have ht3 : groupTotal exTie 2000 3 = 90 := by
      norm_num [groupTotal, exTie, List.filterMap_cons, List.sum_cons]
    have hcye : country_year_emissions exTie =
        [(2000, 1, 100), (2000, 2, 100), (2000, 3, 90)] := by
      rw [cye_eq_map, hkeys]
      simp only [List.map_cons, List.map_nil, ht1, ht2, ht3]
    have hranked : rankedEmissions exTie =
        [⟨2000, 1, 100, 1⟩, ⟨2000, 2, 100, 1⟩, ⟨2000, 3, 90, 2⟩] := by
      rw [rankedEmissions, hcye]
      norm_num [denseRank, yearDistinctTotals, dropDupFirst]
    rw [top_emitters, hranked]
    decide

/-- C5, witness: the concrete tie conjunct of the theorem, projected out. -/
theorem C5_witness :
    top_emitters exTie =
      [⟨2000, 1, 100, 1⟩, ⟨2000, 2, 100, 1⟩, ⟨2000, 3, 90, 2⟩] :=
  (C5_top_emitters exTie).2.2.2.2.2

/-! ### Claim C10 -/

/-- C10: an input on which a single year keeps more than 10 rows — the
eleven tied countries of `exEleven` all receive dense rank 1, so the
rank-based filter retains all eleven `(year, country_sk)` groups. -/
theorem C10_ties_exceed_ten_rows :
    ((top_emitters exEleven).filter (fun g => decide (g.year = 2000))).length = 11 ∧
    10 < ((top_emitters exEleven).filter (fun g => decide (g.year = 2000))).length ∧
    (∀ g ∈ top_emitters exEleven, g.rank = 1) := by
  refine ⟨by decide, by decide, by decide⟩

end OwidPipeline
